import Mathlib

/-!
Verification development for the JWT verification and key-management subsystem
of the go-chi-middleware-server repository.

The definitions below are a shallow embedding of the Go source:
* `pkg/server/middleware/jwt_authenticator.go` — `JwksKeyLoader` (JWKS fetch,
  cache, `GetPublicKey`, `Reload`), `JwtAuthenticator.getRSAPublicKeyByID`,
  and the `ValidationKeyGetter` / public-prefix gate in `GetHandler`;
* the `NewContextSetter` middleware (claims-to-context projection).

Machine integers are modelled as `Nat`/`Int` with explicit wrapping where the
Go code can overflow; fallible operations return `Option`.  Network I/O is
modelled by passing the outcome of the HTTP fetch (`FetchOutcome`) as an
explicit parameter, and `sync.Once` by a boolean `onceFired` flag: Go's
`Once.Do` guarantees mutual exclusion and that every `Do` call returns only
after the single execution of the body completes, so any concurrent schedule
of `GetPublicKey` callers is observationally a linearization in which exactly
one caller runs the body and the rest run afterwards with the flag set.
-/

namespace JwtMw

/-- RSA public key as built by the Go code: modulus `N` (`big.Int`, set from
big-endian bytes, hence a `Nat`) and exponent `E` (Go `int`, 64-bit). -/
structure RsaPublicKey where
  n : Nat
  e : Int
  deriving DecidableEq, Repr

/-- One JWKS entry, mirroring the `jsonWebKey` struct (JSON fields
`kty, kid, use, alg, n, e, x5c`). -/
structure JsonWebKey where
  kty : String
  kid : String
  use : String
  alg : String
  n : String
  e : String
  x5c : List String
  deriving DecidableEq, Repr

/-- Value of one base64url alphabet character (RFC 4648 `A–Z a–z 0–9 - _`),
`none` for a character outside the alphabet, as in Go's
`base64.RawURLEncoding`. -/
def b64urlCharVal (c : Char) : Option Nat :=
  if 'A' ≤ c ∧ c ≤ 'Z' then some (c.toNat - 65)
  else if 'a' ≤ c ∧ c ≤ 'z' then some (c.toNat - 97 + 26)
  else if '0' ≤ c ∧ c ≤ '9' then some (c.toNat - 48 + 52)
  else if c = '-' then some 62
  else if c = '_' then some 63
  else none

/-- Map every character to its 6-bit value, failing on the first character
outside the alphabet. -/
def b64Vals : List Char → Option (List Nat)
  | [] => some []
  | c :: cs =>
    match b64urlCharVal c, b64Vals cs with
    | some v, some vs => some (v :: vs)
    | _, _ => none

/-- Reassemble 6-bit groups into bytes.  A trailing group of one character is
invalid (as in Go); trailing groups of two or three characters yield one or
two bytes, discarding the leftover low bits (Go's non-strict decoder). -/
def b64Bytes : List Nat → Option (List Nat)
  | [] => some []
  | [_] => none
  | [a, b] => some [a * 4 + b / 16]
  | [a, b, c] => some [a * 4 + b / 16, b % 16 * 16 + c / 4]
  | a :: b :: c :: d :: rest =>
    match b64Bytes rest with
    | some bs => some ((a * 4 + b / 16) :: (b % 16 * 16 + c / 4) :: (c % 4 * 64 + d) :: bs)
    | none => none

/-- `base64.RawURLEncoding.DecodeString`: unpadded base64url to bytes. -/
def b64urlDecode (s : String) : Option (List Nat) :=
  match b64Vals s.toList with
  | some vs => b64Bytes vs
  | none => none

/-- Big-endian bytes to `Nat`, as `big.Int.SetBytes` does. -/
def bytesBE (bs : List Nat) : Nat :=
  bs.foldl (fun acc b => acc * 256 + b) 0

/-- Go's `int(v)` on a `uint64`: two's-complement wrap into a signed 64-bit
integer. -/
def goInt64OfUInt64 (v : Nat) : Int :=
  if v < 2 ^ 63 then (v : Int) else (v : Int) - 2 ^ 64

/-- `JwksKeyLoader.loadKeysFromComponents`: decode `n` and `e` from base64url,
build `N` as a big-endian integer, left-pad `e` to 8 bytes when shorter
(`binary.Read` with `binary.BigEndian` then consumes exactly 8 bytes) and
take it as an unsigned 64-bit big-endian value cast to `int`.  Go returns
`(nil, err)` on a decode failure; the assigned key is then nil, modelled as
`none`. -/
def loadKeysFromComponents (key : JsonWebKey) : Option RsaPublicKey :=
  match b64urlDecode key.n with
  | none => none
  | some decN =>
    match b64urlDecode key.e with
    | none => none
    | some decE =>
      let eBytes := if decE.length < 8 then List.replicate (8 - decE.length) 0 ++ decE else decE
      some { n := bytesBE decN, e := goInt64OfUInt64 (bytesBE (eBytes.take 8)) }

/-- Parsing of one matching JWKS entry inside the `GetPublicKey` scan: if the
entry has an `x5c` chain, the first certificate is PEM-wrapped and handed to
`jwt.ParseRSAPublicKeyFromPEM` — modelled by the abstract parameter
`parseCert` applied to that first certificate string (the PEM wrapping is a
fixed injective decoration); otherwise the key is built from the `n`/`e`
components.  A parse error leaves the Go `pubKey` variable nil (`none`). -/
def parseEntry (parseCert : String → Option RsaPublicKey) (k : JsonWebKey) :
    Option RsaPublicKey :=
  match k.x5c with
  | c :: _ => parseCert c
  | [] => loadKeysFromComponents k

/-- The key-resolution loop of `GetPublicKey`: iterate over all entries in
document order; every entry whose `Kid` equals the requested key ID
overwrites the `pubKey` variable with its parse result (the loop has no
`break` and the per-entry error is not checked inside the loop). -/
def scanKeys (parseCert : String → Option RsaPublicKey) (keys : List JsonWebKey)
    (keyID : String) : Option RsaPublicKey :=
  keys.foldl (fun acc k => if keyID == k.kid then parseEntry parseCert k else acc) none

/-- The last entry of the document whose `Kid` equals the requested key ID. -/
def lastMatch (keyID : String) : List JsonWebKey → Option JsonWebKey
  | [] => none
  | k :: ks =>
    match lastMatch keyID ks with
    | some r => some r
    | none => if keyID == k.kid then some k else none

/-- Error taxonomy of the key-loading path, matching the errors the Go code
produces: a network error from `http.Get`, a JSON decode error, the
`"unable to find appropriate key"` error, and the
`"can't load public key for JWT validation: %v"` wrapper added by
`getRSAPublicKeyByID` around a retry failure. -/
inductive GoError where
  | fetchError
  | parseError
  | keyNotFound
  | keyLoad (inner : GoError)
  deriving DecidableEq, Repr

/-- Outcome of one `http.Get` + `json.Decode` of the JWKS URL, supplied by the
environment: transport failure, malformed JSON body, or a parsed document. -/
inductive FetchOutcome where
  | netErr
  | parseErr
  | ok (doc : List JsonWebKey)
  deriving DecidableEq, Repr

/-- `JwksKeyLoader` state: the cached `pubKey` (nil pointer = `none`) and
whether the current `sync.Once` has fired.  `NewJwksKeyLoader` starts with no
key and a fresh `Once`. -/
structure JwksKeyLoader where
  pubKey : Option RsaPublicKey
  onceFired : Bool
  deriving DecidableEq, Repr

/-- `NewJwksKeyLoader`: nil cached key, fresh `sync.Once`. -/
def newJwksKeyLoader : JwksKeyLoader := { pubKey := none, onceFired := false }

/-- The `(key, error)` pair returned by `GetPublicKey`. -/
structure GetResult where
  key : Option RsaPublicKey
  err : Option GoError
  deriving DecidableEq, Repr

/-- `JwksKeyLoader.GetPublicKey`.  Returns the `(key, error)` pair, the new
loader state and the number of `http.Get` calls performed (0 or 1).

If the `Once` has fired, the body is skipped, the local `doErr` stays nil and
the call returns the cached `pubKey` with a nil error.  Otherwise the body
runs once: a transport or decode failure sets `doErr` and leaves `pubKey`
untouched; otherwise the document is scanned (`scanKeys`) and either the
resolved key is stored and returned, or `doErr` is set to the
key-not-found error. -/
def getPublicKey (parseCert : String → Option RsaPublicKey) (l : JwksKeyLoader)
    (fetch : FetchOutcome) (keyID : String) : GetResult × JwksKeyLoader × Nat :=
  if l.onceFired then
    (⟨l.pubKey, none⟩, l, 0)
  else
    match fetch with
    | .netErr => (⟨none, some .fetchError⟩, { l with onceFired := true }, 1)
    | .parseErr => (⟨none, some .parseError⟩, { l with onceFired := true }, 1)
    | .ok doc =>
      match scanKeys parseCert doc keyID with
      | none => (⟨none, some .keyNotFound⟩, { l with onceFired := true }, 1)
      | some k => (⟨some k, none⟩, { pubKey := some k, onceFired := true }, 1)

/-- `JwksKeyLoader.Reload`: replace the `sync.Once` with a fresh one.  The
cached `pubKey` is NOT cleared; it is only overwritten by the next successful
fetch. -/
def reload (l : JwksKeyLoader) : JwksKeyLoader :=
  { l with onceFired := false }

/-- Counters instrumenting the key-loading path of one verification:
`http.Get` calls, `Reload` calls, and `GetPublicKey` calls. -/
structure LoadStats where
  fetches : Nat
  reloads : Nat
  getCalls : Nat
  deriving DecidableEq, Repr

/-- `JwtAuthenticator.getRSAPublicKeyByID`: call `GetPublicKey`; on a non-nil
error, call `Reload` and retry `GetPublicKey` exactly once, wrapping a retry
failure in the `keyLoad` error; on a nil error return the (possibly nil) key.
`fetch1`/`fetch2` are the environment's responses to the at most two fetches. -/
def getRSAPublicKeyByID (parseCert : String → Option RsaPublicKey)
    (l : JwksKeyLoader) (fetch1 fetch2 : FetchOutcome) (keyID : String) :
    GetResult × JwksKeyLoader × LoadStats :=
  match getPublicKey parseCert l fetch1 keyID with
  | (r1, l1, n1) =>
    match r1.err with
    | some _ =>
      match getPublicKey parseCert (reload l1) fetch2 keyID with
      | (r2, l2, n2) =>
        match r2.err with
        | some e2 => (⟨none, some (.keyLoad e2)⟩, l2, ⟨n1 + n2, 1, 2⟩)
        | none => (⟨r2.key, none⟩, l2, ⟨n1 + n2, 1, 2⟩)
    | none => (⟨r1.key, none⟩, l1, ⟨n1, 0, 1⟩)

/-- A JWT claim value (`interface{}` in Go): string, number, boolean or
string array. -/
inductive ClaimValue where
  | str (s : String)
  | num (i : Int)
  | flag (b : Bool)
  | arr (xs : List String)
  deriving DecidableEq, Repr

/-- `MapClaims`: a string-keyed claim map, modelled as an association list
(first binding wins on lookup, as for a Go map with unique keys). -/
abbrev MapClaims := List (String × ClaimValue)

/-- The Go type assertion `m[name].(string)` with discarded `ok`: the string
value if the claim is present and is a string, `""` otherwise. -/
def claimString (m : MapClaims) (name : String) : String :=
  match List.lookup name m with
  | some (.str s) => s
  | _ => ""

/-- `verifyAud`/`verifyIss` of dgrijalva/jwt-go v3.2.0 (claims.go): an empty
extracted value passes iff the check is not required; otherwise a
constant-time byte comparison, i.e. string equality. -/
def verifyClaimString (v cmp : String) (required : Bool) : Bool :=
  if v = "" then !required else v == cmp

/-- `MapClaims.VerifyAudience(cmp, req)` of dgrijalva/jwt-go v3.2.0. -/
def mapClaimsVerifyAudience (m : MapClaims) (cmp : String) (required : Bool) : Bool :=
  verifyClaimString (claimString m "aud") cmp required

/-- `MapClaims.VerifyIssuer(cmp, req)` of dgrijalva/jwt-go v3.2.0. -/
def mapClaimsVerifyIssuer (m : MapClaims) (cmp : String) (required : Bool) : Bool :=
  verifyClaimString (claimString m "iss") cmp required

/-- A parsed JWT as the `ValidationKeyGetter` sees it: the `kid` header entry
(`none` when absent or not a string, where the Go assertion would panic) and
the claim map. -/
structure Token where
  headerKid : Option String
  claims : MapClaims
  deriving DecidableEq, Repr

/-- Result of one token verification, as classified by the middleware:
success with the claims and the key used, the `"invalid audience"` and
`"invalid issuer"` errors, a key-load error, a signature failure, or the two
panic paths of the Go code (missing `kid` assertion; nil key reaching the
RSA verifier). -/
inductive VerifyOutcome where
  | ok (claims : MapClaims) (key : RsaPublicKey)
  | invalidAudience
  | invalidIssuer
  | keyLoadErr (e : GoError)
  | signatureErr
  | panicNoKid
  | panicNilKey
  deriving DecidableEq, Repr

/-- `LoadStats` plus the number of RSA-SHA256 signature checks performed. -/
structure VerifyStats where
  fetches : Nat
  reloads : Nat
  getCalls : Nat
  sigChecks : Nat
  deriving DecidableEq, Repr

/-- The verification pipeline of `GetHandler`'s middleware for one bearer
token: the `ValidationKeyGetter` first checks the `aud` claim
(`VerifyAudience` with `required = false`), then the `iss` claim, then reads
the `kid` header and resolves the key via `getRSAPublicKeyByID`; only after
the key getter returns successfully does `jwt-go` verify the RS256 signature,
exactly once, modelled by the environment predicate `sigOk` (whether the
token's signature verifies under a given key). -/
def verify (parseCert : String → Option RsaPublicKey) (audience issuer : String)
    (l : JwksKeyLoader) (fetch1 fetch2 : FetchOutcome) (sigOk : RsaPublicKey → Bool)
    (tok : Token) : VerifyOutcome × JwksKeyLoader × VerifyStats :=
  if ¬ mapClaimsVerifyAudience tok.claims audience false then
    (.invalidAudience, l, ⟨0, 0, 0, 0⟩)
  else if ¬ mapClaimsVerifyIssuer tok.claims issuer false then
    (.invalidIssuer, l, ⟨0, 0, 0, 0⟩)
  else
    match tok.headerKid with
    | none => (.panicNoKid, l, ⟨0, 0, 0, 0⟩)
    | some kid =>
      match getRSAPublicKeyByID parseCert l fetch1 fetch2 kid with
      | (r, l2, st) =>
        match r.err with
        | some e => (.keyLoadErr e, l2, ⟨st.fetches, st.reloads, st.getCalls, 0⟩)
        | none =>
          match r.key with
          | none => (.panicNilKey, l2, ⟨st.fetches, st.reloads, st.getCalls, 0⟩)
          | some k =>
            if sigOk k then (.ok tok.claims k, l2, ⟨st.fetches, st.reloads, st.getCalls, 1⟩)
            else (.signatureErr, l2, ⟨st.fetches, st.reloads, st.getCalls, 1⟩)

/-- The request data the authentication gate can observe: the escaped URL
path and the `Authorization` header (absent = `none`). -/
structure Request where
  escapedPath : String
  authHeader : Option String
  deriving DecidableEq, Repr

/-- `strings.HasPrefix(s, pre)`, on the character sequence of the strings. -/
def goHasPrefix (s pre : String) : Bool :=
  pre.toList.isPrefixOf s.toList

/-- The public-path test in `GetHandler`'s wrapper: iterate over the
configured prefixes in order and stop at the first prefix of
`r.URL.EscapedPath()` (`strings.HasPrefix`). -/
def isPublicPath (prefixes : List String) (path : String) : Bool :=
  prefixes.any (fun pre => goHasPrefix path pre)

/-- What the gate wrapper does with one request: on a public path it calls
`next.ServeHTTP(w, r)` directly with the original, untouched request — the
JWT middleware (and with it any header inspection or context mutation) is
bypassed; otherwise the request is handed to the JWT middleware chain. -/
inductive GateOutcome where
  | downstreamPublic (r : Request)
  | jwtPath (r : Request)
  deriving DecidableEq, Repr

/-- The per-request branch of `GetHandler`'s returned middleware. -/
def gateHandle (prefixes : List String) (r : Request) : GateOutcome :=
  if isPublicPath prefixes r.escapedPath then .downstreamPublic r else .jwtPath r

/-- A request-scoped context, modelled as the chain built by
`context.WithValue`: newest binding first, lookup finds the newest. -/
abbrev Ctx := List (String × ClaimValue)

/-- What the `NewContextSetter` middleware does with one request: invoke the
downstream handler with some (possibly derived) context, or render an
authentication error and stop. -/
inductive SetterOutcome where
  | next (ctx : Ctx)
  | authErr (msg : String)
  deriving DecidableEq, Repr

/-- The mapping loop of `NewContextSetter`: for each configured
`(claimKey, contextKey)` pair, look the claim up; if absent, render
`"<claimKey> claim not found in claims"` and stop (the downstream handler is
never invoked); if present, extend the derived context.  Only after the whole
mapping succeeded is the downstream handler called, with the fully derived
context. -/
def setClaims (claims : MapClaims) (ctx : Ctx) : List (String × String) → SetterOutcome
  | [] => .next ctx
  | (claimKey, contextKey) :: rest =>
    match List.lookup claimKey claims with
    | none => .authErr (claimKey ++ " claim not found in claims")
    | some v => setClaims claims ((contextKey, v) :: ctx) rest

/-- `NewContextSetter` for one request: if no token is attached to the
context (a missing or nil `*jwt.Token` under the `jwt_token` key) or the
configured mapping is empty, pass the request through unchanged; otherwise
run the mapping loop.  (The `token.Claims.(jwt.MapClaims)` assertion cannot
fail for tokens produced by the upstream middleware, so a token always
carries its claim map here.) -/
def contextSetter (mapping : List (String × String)) (tok : Option Token)
    (ctx : Ctx) : SetterOutcome :=
  match tok with
  | none => .next ctx
  | some t =>
    if mapping.isEmpty then .next ctx
    else setClaims t.claims ctx mapping

/-- One operation on a `JwksKeyLoader`, for reasoning about sequences of
calls: a `GetPublicKey` call (with the environment's fetch response should
this call fire the `Once`) or a `Reload` call. -/
inductive LoaderOp where
  | get (fetch : FetchOutcome) (keyID : String)
  | doReload
  deriving DecidableEq, Repr

/-- Run a sequence of loader operations, collecting every `GetPublicKey`
result, the final state and the total number of `http.Get` calls.  A
concurrent schedule of callers serialised by `sync.Once` and the
`RWMutex` is observationally one such sequence. -/
def runOps (parseCert : String → Option RsaPublicKey) :
    JwksKeyLoader → List LoaderOp → List GetResult × JwksKeyLoader × Nat
  | l, [] => ([], l, 0)
  | l, .get f k :: rest =>
    match getPublicKey parseCert l f k with
    | (r, l1, n) =>
      match runOps parseCert l1 rest with
      | (rs, l2, m) => (r :: rs, l2, n + m)
  | l, .doReload :: rest => runOps parseCert (reload l) rest

/-! ### Concrete fixtures used by counterexamples and witnesses -/

/-- A certificate parser for fixtures that carry no `x5c` chain. -/
def noCert : String → Option RsaPublicKey := fun _ => none

/-- JWKS entry with key ID `A`: modulus bytes `[1,2,3]`, exponent 65537. -/
def entryA : JsonWebKey := ⟨"RSA", "A", "sig", "RS256", "AQID", "AQAB", []⟩

/-- JWKS entry with key ID `B`: modulus bytes `[1,2,4]`, exponent 65537. -/
def entryB : JsonWebKey := ⟨"RSA", "B", "sig", "RS256", "AQIE", "AQAB", []⟩

/-- The RSA key encoded by `entryA`. -/
def keyA : RsaPublicKey := ⟨66051, 65537⟩

/-- The RSA key encoded by `entryB`. -/
def keyB : RsaPublicKey := ⟨66052, 65537⟩

/-- First of two JWKS entries sharing key ID `K` (same key as `entryA`). -/
def entryFirstK : JsonWebKey := ⟨"RSA", "K", "sig", "RS256", "AQID", "AQAB", []⟩

/-- Second of two JWKS entries sharing key ID `K` (same key as `entryB`). -/
def entrySecondK : JsonWebKey := ⟨"RSA", "K", "sig", "RS256", "AQIE", "AQAB", []⟩

/-! ### Helper lemmas -/

/-- The key-resolution fold, for any accumulator, returns the parse of the
last matching entry, falling back to the accumulator when no entry matches. -/
theorem scanAux_eq_lastMatch (pc : String → Option RsaPublicKey) (kid : String)
    (keys : List JsonWebKey) :
    ∀ acc : Option RsaPublicKey,
      keys.foldl (fun a k => if kid == k.kid then parseEntry pc k else a) acc
        = (match lastMatch kid keys with
           | some k => parseEntry pc k
           | none => acc) := by
  induction keys with
  | nil => intro acc; simp [lastMatch]
  | cons k ks ih =>
    intro acc
    rw [List.foldl_cons, ih]
    simp only [lastMatch]
    cases hl : lastMatch kid ks with
    | some r => simp
    | none =>
      by_cases hk : (kid == k.kid) = true
      · simp [hk]
      · simp [hk]

/-! ### C4 -/

/-- C4, corrected at a concrete input: with two JWKS entries sharing key ID
`K` that decode to different keys, the scan resolves the key of the SECOND
(last) matching entry, not the first. -/
theorem c4_counterexample :
    entryFirstK.kid = "K" ∧ entrySecondK.kid = "K"
  ∧ parseEntry noCert entryFirstK = some keyA
  ∧ parseEntry noCert entrySecondK = some keyB
  ∧ keyA ≠ keyB
  ∧ scanKeys noCert [entryFirstK, entrySecondK] "K" = some keyB
  ∧ scanKeys noCert [entryFirstK, entrySecondK] "K" ≠ some keyA := by
  decide

/-- C4 (amended): when entries of the fetched JWKS document share the
requested key ID, exactly one key is resolved — the key of the LAST matching
entry (the scan continues over later entries and does not short-circuit, each
match overwriting the previous one); with no matching entry, no key is
resolved. -/
theorem c4_last_match_resolved (pc : String → Option RsaPublicKey)
    (keys : List JsonWebKey) (kid : String) :
    scanKeys pc keys kid
      = (match lastMatch kid keys with
         | some k => parseEntry pc k
         | none => none) :=
  scanAux_eq_lastMatch pc kid keys none

/-! ### C5 -/

/-- C5: a request whose escaped URL path has at least one configured public
path prefix is handed to the downstream handler with the original, untouched
request — the JWT middleware is bypassed, so the Authorization header is
never inspected and no token is attached; moreover the decision is
independent of the Authorization header. -/
theorem c5_public_prefix_bypass (ps : List String) (r : Request)
    (h : ∃ p ∈ ps, goHasPrefix r.escapedPath p = true) :
    gateHandle ps r = .downstreamPublic r
  ∧ ∀ a : Option String,
      gateHandle ps { r with authHeader := a } = .downstreamPublic { r with authHeader := a } := by
  have hp : isPublicPath ps r.escapedPath = true := by
    rcases h with ⟨p, hmem, hpre⟩
    simp only [isPublicPath, List.any_eq_true]
    exact ⟨p, hmem, hpre⟩
  exact ⟨by simp [gateHandle, hp], fun a => by simp [gateHandle, hp]⟩

/-- C5 witness: path `/public/info` with prefix `/public` configured and no
Authorization header reaches the downstream handler unauthenticated. -/
theorem c5_public_prefix_bypass_witness :
    gateHandle ["/public"] ⟨"/public/info", none⟩
      = .downstreamPublic ⟨"/public/info", none⟩ :=
  (c5_public_prefix_bypass ["/public"] ⟨"/public/info", none⟩
    ⟨"/public", by decide, by decide⟩).1

/-! ### C7 -/

/-- C7: a request reaching the context setter with no token attached, or with
an empty claim-to-context mapping, is passed to the downstream handler with
its context unchanged and no error. -/
theorem c7_passthrough (mapping : List (String × String)) (tok : Option Token)
    (ctx : Ctx) (h : tok = none ∨ mapping = []) :
    contextSetter mapping tok ctx = .next ctx := by
  rcases h with h | h
  · subst h; rfl
  · subst h
    cases tok with
    | none => rfl
    | some t => simp [contextSetter]

/-- C7 witness: both pass-through cases at concrete inputs. -/
theorem c7_passthrough_witness :
    contextSetter [("sub", "user")] none [] = .next []
  ∧ contextSetter [] (some ⟨some "A", [("sub", .str "alice")]⟩) [] = .next [] :=
  ⟨c7_passthrough _ _ _ (Or.inl rfl), c7_passthrough _ _ _ (Or.inr rfl)⟩

/-! ### C1 -/

/-- C1, corrected at a concrete input: the cache is per-loader, not per key
ID.  After a first lookup for key ID `A` cached that key, a lookup for key ID
`B` succeeds (nil error) yet returns the key that was resolved for `A`, while
the fetched document resolves a different key for `B`. -/
theorem c1_counterexample :
    (runOps noCert newJwksKeyLoader
        [.get (.ok [entryA, entryB]) "A", .get (.ok [entryA, entryB]) "B"]).1
      = [⟨some keyA, none⟩, ⟨some keyA, none⟩]
  ∧ scanKeys noCert [entryA, entryB] "B" = some keyB
  ∧ keyA ≠ keyB := by decide

/-- C1 (amended): once the loader's one-shot gate has fired, `getPublicKey`
returns the cached key with a nil error and no fetch, regardless of the
requested key ID; otherwise it performs exactly one fetch and returns a fetch
error on network failure, a parse error on malformed JSON, a key-not-found
error when no key is resolved for the requested ID, and on success the key
resolved for the requested ID from the fetched document. -/
theorem c1_cache_and_fetch (pc : String → Option RsaPublicKey)
    (l : JwksKeyLoader) (f : FetchOutcome) (k : String) :
    (l.onceFired = true → getPublicKey pc l f k = (⟨l.pubKey, none⟩, l, 0))
  ∧ (l.onceFired = false →
      (getPublicKey pc l f k).2.2 = 1
    ∧ (f = .netErr → (getPublicKey pc l f k).1 = ⟨none, some .fetchError⟩)
    ∧ (f = .parseErr → (getPublicKey pc l f k).1 = ⟨none, some .parseError⟩)
    ∧ (∀ doc, f = .ok doc → scanKeys pc doc k = none →
        (getPublicKey pc l f k).1 = ⟨none, some .keyNotFound⟩)
    ∧ (∀ doc key, f = .ok doc → scanKeys pc doc k = some key →
        (getPublicKey pc l f k).1 = ⟨some key, none⟩)) := by
  constructor
  · intro h; simp [getPublicKey, h]
  · intro h
    refine ⟨?_, fun hf => ?_, fun hf => ?_, fun doc hf hs => ?_, fun doc key hf hs => ?_⟩
    · cases f with
      | netErr => simp [getPublicKey, h]
      | parseErr => simp [getPublicKey, h]
      | ok doc =>
        simp only [getPublicKey, h, Bool.false_eq_true, if_false]
        cases hs : scanKeys pc doc k <;> simp [hs]
    · subst hf; simp [getPublicKey, h]
    · subst hf; simp [getPublicKey, h]
    · subst hf; simp [getPublicKey, h, hs]
    · subst hf; simp [getPublicKey, h, hs]

/-- C1 witness: the cached branch returns the cached key with no fetch, and
the uncached branch resolves the requested key ID from the document. -/
theorem c1_cache_and_fetch_witness :
    getPublicKey noCert ⟨some keyA, true⟩ .netErr "B"
      = (⟨some keyA, none⟩, ⟨some keyA, true⟩, 0)
  ∧ (getPublicKey noCert newJwksKeyLoader (.ok [entryA]) "A").1 = ⟨some keyA, none⟩ :=
  ⟨(c1_cache_and_fetch noCert ⟨some keyA, true⟩ .netErr "B").1 rfl,
   ((c1_cache_and_fetch noCert newJwksKeyLoader (.ok [entryA]) "A").2 rfl).2.2.2.2
     [entryA] keyA rfl (by decide)⟩

/-! ### C8 -/

/-- C8: `Reload` performs no I/O (no fetch, no result) and is idempotent —
any number of consecutive `Reload` calls before the next lookup is equivalent
to a single one — and after a `Reload` the next `GetPublicKey` call performs
exactly one fetch, whatever the prior cache state. -/
theorem c8_reload_idempotent (pc : String → Option RsaPublicKey)
    (l : JwksKeyLoader) (ops : List LoaderOp) (n : Nat) (f : FetchOutcome) (k : String) :
    runOps pc l [.doReload] = ([], reload l, 0)
  ∧ runOps pc l (List.replicate (n + 1) .doReload ++ ops) = runOps pc l (.doReload :: ops)
  ∧ (getPublicKey pc (reload l) f k).2.2 = 1 := by
  refine ⟨rfl, ?_, ?_⟩
  · induction n generalizing l with
    | zero => simp
    | succ m ih =>
      have hrep : List.replicate (m + 1 + 1) LoaderOp.doReload ++ ops
          = .doReload :: (List.replicate (m + 1) .doReload ++ ops) := by
        simp [List.replicate_succ]
      rw [hrep]
      show runOps pc (reload l) (List.replicate (m + 1) .doReload ++ ops) = _
      rw [ih (reload l)]
      rfl
  · cases f with
    | netErr => rfl
    | parseErr => rfl
    | ok doc =>
      simp only [getPublicKey, reload]
      cases hs : scanKeys pc doc k <;> simp [hs]

/-! ### C10 -/

/-- C10, corrected at a concrete input: when the failing fetch follows a
`Reload` of a loader that had already cached a key, subsequent calls without
another `Reload` return the stale cached key with a nil error — not a nil
key. -/
theorem c10_counterexample :
    runOps noCert newJwksKeyLoader
        [.get (.ok [entryA]) "A", .doReload, .get .netErr "A", .get .netErr "A"]
      = ([⟨some keyA, none⟩, ⟨none, some .fetchError⟩, ⟨some keyA, none⟩],
         ⟨some keyA, true⟩, 2)
  ∧ some keyA ≠ (none : Option RsaPublicKey) := by decide

/-- C10 (amended): after a `GetPublicKey` call that returned an error, every
subsequent call on the same loader without an intervening `Reload` performs
no new fetch and returns the loader's previously cached key — `none` when
nothing was ever cached, as on a fresh loader — together with a nil error;
the earlier failure is neither surfaced again nor retried. -/
theorem c10_error_latched (pc : String → Option RsaPublicKey) (l : JwksKeyLoader)
    (f : FetchOutcome) (k : String) (e : GoError)
    (h : (getPublicKey pc l f k).1.err = some e) :
    (getPublicKey pc l f k).2.1.pubKey = l.pubKey
  ∧ ∀ f2 k2, getPublicKey pc (getPublicKey pc l f k).2.1 f2 k2
      = (⟨l.pubKey, none⟩, (getPublicKey pc l f k).2.1, 0) := by
  by_cases ho : l.onceFired = true
  · exfalso; simp [getPublicKey, ho] at h
  · have ho2 : l.onceFired = false := by
      cases hb : l.onceFired
      · rfl
      · exact absurd hb ho
    cases f with
    | netErr =>
      exact ⟨by simp [getPublicKey, ho2], fun f2 k2 => by simp [getPublicKey, ho2]⟩
    | parseErr =>
      exact ⟨by simp [getPublicKey, ho2], fun f2 k2 => by simp [getPublicKey, ho2]⟩
    | ok doc =>
      cases hs : scanKeys pc doc k with
      | some key => exfalso; simp [getPublicKey, ho2, hs] at h
      | none =>
        exact ⟨by simp [getPublicKey, ho2, hs], fun f2 k2 => by simp [getPublicKey, ho2, hs]⟩

/-- C10 witness: a fresh loader whose first fetch fails returns a nil key and
nil error, with no fetch, on the next call. -/
theorem c10_error_latched_witness :
    (getPublicKey noCert newJwksKeyLoader .netErr "A").1.err = some .fetchError
  ∧ getPublicKey noCert (getPublicKey noCert newJwksKeyLoader .netErr "A").2.1 .netErr "A"
      = (⟨none, none⟩, (getPublicKey noCert newJwksKeyLoader .netErr "A").2.1, 0) :=
  ⟨by decide,
   (c10_error_latched noCert newJwksKeyLoader .netErr "A" .fetchError (by decide)).2 .netErr "A"⟩

/-! ### C2 -/

/-- C2: when key resolution fails — the first `GetPublicKey` returns a
non-nil error — `getRSAPublicKeyByID` performs exactly one `Reload` and
exactly one retried `GetPublicKey` (two calls in total), surfacing the
wrapped key-load error only when the retry also fails; when the first
resolution succeeds there is no reload and no retry; and a signature failure
occurring after a successful key load yields the signature error with exactly
one signature check and exactly the load activity of the key resolution — it
is never retried. -/
theorem c2_reload_retry_sig (pc : String → Option RsaPublicKey)
    (l : JwksKeyLoader) (f1 f2 : FetchOutcome) (kid : String)
    (audience issuer : String) (sigOk : RsaPublicKey → Bool) (tok : Token) :
    (∀ e, (getPublicKey pc l f1 kid).1.err = some e →
        (getRSAPublicKeyByID pc l f1 f2 kid).2.2.reloads = 1
      ∧ (getRSAPublicKeyByID pc l f1 f2 kid).2.2.getCalls = 2
      ∧ (∀ e2, (getPublicKey pc (reload (getPublicKey pc l f1 kid).2.1) f2 kid).1.err = some e2 →
            (getRSAPublicKeyByID pc l f1 f2 kid).1 = ⟨none, some (.keyLoad e2)⟩)
      ∧ ((getPublicKey pc (reload (getPublicKey pc l f1 kid).2.1) f2 kid).1.err = none →
            (getRSAPublicKeyByID pc l f1 f2 kid).1
              = ⟨(getPublicKey pc (reload (getPublicKey pc l f1 kid).2.1) f2 kid).1.key, none⟩))
  ∧ ((getPublicKey pc l f1 kid).1.err = none →
        getRSAPublicKeyByID pc l f1 f2 kid
          = (⟨(getPublicKey pc l f1 kid).1.key, none⟩, (getPublicKey pc l f1 kid).2.1,
             ⟨(getPublicKey pc l f1 kid).2.2, 0, 1⟩))
  ∧ (∀ kid2 key, tok.headerKid = some kid2 →
        mapClaimsVerifyAudience tok.claims audience false = true →
        mapClaimsVerifyIssuer tok.claims issuer false = true →
        (getRSAPublicKeyByID pc l f1 f2 kid2).1 = ⟨some key, none⟩ →
        sigOk key = false →
          verify pc audience issuer l f1 f2 sigOk tok
            = (.signatureErr, (getRSAPublicKeyByID pc l f1 f2 kid2).2.1,
               ⟨(getRSAPublicKeyByID pc l f1 f2 kid2).2.2.fetches,
                (getRSAPublicKeyByID pc l f1 f2 kid2).2.2.reloads,
                (getRSAPublicKeyByID pc l f1 f2 kid2).2.2.getCalls, 1⟩)) := by
  refine ⟨fun e he => ?_, fun he => ?_, fun kid2 key hkid ha hi hkey hsig => ?_⟩
  · rcases hg1 : getPublicKey pc l f1 kid with ⟨r1, l1, n1⟩
    rw [hg1] at he
    simp only at he
    rcases hg2 : getPublicKey pc (reload l1) f2 kid with ⟨r2, l2, n2⟩
    simp only [getRSAPublicKeyByID, hg1, he, hg2]
    cases hr2 : r2.err with
    | some e2 => simp [hr2]
    | none => simp [hr2]
  · rcases hg1 : getPublicKey pc l f1 kid with ⟨r1, l1, n1⟩
    rw [hg1] at he
    simp only at he
    simp [getRSAPublicKeyByID, hg1, he]
  · rcases hg : getRSAPublicKeyByID pc l f1 f2 kid2 with ⟨r, l2, st⟩
    rw [hg] at hkey
    simp only at hkey
    subst hkey
    simp [verify, ha, hi, hkid, hg, hsig]

/-- C2 witness: with the network down, a fresh loader fails resolution; the
verifier reloads once, retries once and surfaces the wrapped error; and with
a resolvable key but a bad signature, verification fails with the signature
error after exactly one signature check. -/
theorem c2_reload_retry_sig_witness :
    ((getRSAPublicKeyByID noCert newJwksKeyLoader .netErr .netErr "A").2.2.reloads = 1
      ∧ (getRSAPublicKeyByID noCert newJwksKeyLoader .netErr .netErr "A").2.2.getCalls = 2)
  ∧ getRSAPublicKeyByID noCert newJwksKeyLoader (.ok [entryA]) (.ok [entryA]) "A"
      = (⟨some keyA, none⟩, ⟨some keyA, true⟩, ⟨1, 0, 1⟩)
  ∧ verify noCert "a" "i" newJwksKeyLoader (.ok [entryA]) (.ok [entryA]) (fun _ => false)
        ⟨some "A", [("aud", .str "a"), ("iss", .str "i")]⟩
      = (.signatureErr, ⟨some keyA, true⟩, ⟨1, 0, 1, 1⟩) := by
  have h1 := (c2_reload_retry_sig noCert newJwksKeyLoader .netErr .netErr "A" "a" "i"
      (fun _ => false) ⟨some "A", [("aud", .str "a"), ("iss", .str "i")]⟩).1 .fetchError (by decide)
  have h2 := (c2_reload_retry_sig noCert newJwksKeyLoader (.ok [entryA]) (.ok [entryA]) "A" "a" "i"
      (fun _ => false) ⟨some "A", [("aud", .str "a"), ("iss", .str "i")]⟩).2.1 (by decide)
  have h3 := (c2_reload_retry_sig noCert newJwksKeyLoader (.ok [entryA]) (.ok [entryA]) "A" "a" "i"
      (fun _ => false) ⟨some "A", [("aud", .str "a"), ("iss", .str "i")]⟩).2.2 "A" keyA
      rfl (by decide) (by decide) (by decide) rfl
  refine ⟨⟨h1.1, h1.2.1⟩, ?_, ?_⟩
  · rw [h2]; decide
  · rw [h3]; decide

/-! ### C3 -/

/-- C3, corrected at a concrete input: a token carrying NO `aud` claim — so
the extracted audience string `""` differs from the configured audience
`"a"` — is not rejected: the audience check passes (the `required` flag is
false), the key loader IS invoked (one fetch, one `GetPublicKey` call) and
verification succeeds. -/
theorem c3_counterexample :
    claimString ([("iss", .str "i")] : MapClaims) "aud" = ""
  ∧ ("" : String) ≠ "a"
  ∧ verify noCert "a" "i" newJwksKeyLoader (.ok [entryA]) (.ok [entryA]) (fun _ => true)
        ⟨some "A", [("iss", .str "i")]⟩
      = (.ok [("iss", .str "i")] keyA, ⟨some keyA, true⟩, ⟨1, 0, 1, 1⟩) := by decide

/-- C3 (amended): the `aud` claim is checked before the `iss` claim and both
before any key resolution or signature verification; each check compares for
exact equality only when the extracted claim string is non-empty (a missing,
non-string or empty claim passes, since the checks run with `required =
false`).  A token failing the audience or issuer check is rejected with the
corresponding error, the loader state is untouched and no fetch, reload,
`GetPublicKey` call or signature check happens for it. -/
theorem c3_checks_order (pc : String → Option RsaPublicKey) (audience issuer : String)
    (l : JwksKeyLoader) (f1 f2 : FetchOutcome) (sigOk : RsaPublicKey → Bool) (tok : Token) :
    (claimString tok.claims "aud" ≠ "" → claimString tok.claims "aud" ≠ audience →
       verify pc audience issuer l f1 f2 sigOk tok = (.invalidAudience, l, ⟨0, 0, 0, 0⟩))
  ∧ (mapClaimsVerifyAudience tok.claims audience false = true →
     claimString tok.claims "iss" ≠ "" → claimString tok.claims "iss" ≠ issuer →
       verify pc audience issuer l f1 f2 sigOk tok = (.invalidIssuer, l, ⟨0, 0, 0, 0⟩)) := by
  constructor
  · intro h1 h2
    have hv : mapClaimsVerifyAudience tok.claims audience false = false := by
      simp [mapClaimsVerifyAudience, verifyClaimString, h1, h2]
    simp [verify, hv]
  · intro ha h1 h2
    have hv : mapClaimsVerifyIssuer tok.claims issuer false = false := by
      simp [mapClaimsVerifyIssuer, verifyClaimString, h1, h2]
    simp [verify, ha, hv]

/-- C3 witness: a wrong non-empty audience and a wrong non-empty issuer are
each rejected with the corresponding error and zero loader activity. -/
theorem c3_checks_order_witness :
    verify noCert "a" "i" newJwksKeyLoader .netErr .netErr (fun _ => true)
        ⟨some "A", [("aud", .str "x"), ("iss", .str "i")]⟩
      = (.invalidAudience, newJwksKeyLoader, ⟨0, 0, 0, 0⟩)
  ∧ verify noCert "a" "i" newJwksKeyLoader .netErr .netErr (fun _ => true)
        ⟨some "A", [("aud", .str "a"), ("iss", .str "x")]⟩
      = (.invalidIssuer, newJwksKeyLoader, ⟨0, 0, 0, 0⟩) :=
  ⟨(c3_checks_order noCert "a" "i" newJwksKeyLoader .netErr .netErr (fun _ => true)
      ⟨some "A", [("aud", .str "x"), ("iss", .str "i")]⟩).1 (by decide) (by decide),
   (c3_checks_order noCert "a" "i" newJwksKeyLoader .netErr .netErr (fun _ => true)
      ⟨some "A", [("aud", .str "a"), ("iss", .str "x")]⟩).2 (by decide) (by decide) (by decide)⟩

/-! ### C6 -/

/-- When some configured claim is absent, the mapping loop stops at the first
absent claim with an authentication error naming it, for any accumulated
context. -/
theorem setClaims_missing (claims : MapClaims) :
    ∀ (mapping : List (String × String)) (ctx : Ctx),
      (∃ p ∈ mapping, List.lookup p.1 claims = none) →
      ∃ ck, (∃ xk, (ck, xk) ∈ mapping) ∧ List.lookup ck claims = none
        ∧ setClaims claims ctx mapping = .authErr (ck ++ " claim not found in claims") := by
  intro mapping
  induction mapping with
  | nil =>
    intro ctx h
    rcases h with ⟨p, hp, _⟩
    exact absurd hp (List.not_mem_nil p)
  | cons q rest ih =>
    intro ctx h
    rcases q with ⟨ck, xk⟩
    cases hl : List.lookup ck claims with
    | none =>
      exact ⟨ck, ⟨xk, List.mem_cons_self _ _⟩, hl, by simp [setClaims, hl]⟩
    | some v =>
      have h2 : ∃ p ∈ rest, List.lookup p.1 claims = none := by
        rcases h with ⟨p, hp, hnone⟩
        rcases List.mem_cons.mp hp with heq | hmem
        · subst heq; rw [hl] at hnone; cases hnone
        · exact ⟨p, hmem, hnone⟩
      rcases ih ((xk, v) :: ctx) h2 with ⟨ck2, ⟨xk2, hmem2⟩, hn2, heq2⟩
      exact ⟨ck2, ⟨xk2, List.mem_cons_of_mem _ hmem2⟩, hn2, by simp [setClaims, hl, heq2]⟩

/-- When every configured claim is present, the mapping loop succeeds with a
derived context that keeps every entry of the starting context and contains
every `(contextKey, claimValue)` pair of the mapping. -/
theorem setClaims_all (claims : MapClaims) :
    ∀ (mapping : List (String × String)) (ctx : Ctx),
      (∀ p ∈ mapping, ∃ v, List.lookup p.1 claims = some v) →
      ∃ ctx2, setClaims claims ctx mapping = .next ctx2
        ∧ (∀ x ∈ ctx, x ∈ ctx2)
        ∧ (∀ p ∈ mapping, ∃ v, List.lookup p.1 claims = some v ∧ (p.2, v) ∈ ctx2) := by
  intro mapping
  induction mapping with
  | nil =>
    intro ctx _
    exact ⟨ctx, rfl, fun x hx => hx, fun p hp => absurd hp (List.not_mem_nil p)⟩
  | cons q rest ih =>
    intro ctx h
    rcases q with ⟨ck, xk⟩
    rcases h (ck, xk) (List.mem_cons_self _ _) with ⟨v, hv⟩
    have hrest : ∀ p ∈ rest, ∃ v, List.lookup p.1 claims = some v :=
      fun p hp => h p (List.mem_cons_of_mem _ hp)
    rcases ih ((xk, v) :: ctx) hrest with ⟨ctx2, heq, hsub, hall⟩
    refine ⟨ctx2, by simp [setClaims, hv, heq], fun x hx => hsub x (List.mem_cons_of_mem _ hx), ?_⟩
    intro p hp
    rcases List.mem_cons.mp hp with heq2 | hmem
    · subst heq2; exact ⟨v, hv, hsub _ (List.mem_cons_self _ _)⟩
    · exact hall p hmem

/-- C6: with a token attached and a non-empty mapping configured, the context
setter is all-or-nothing: if some configured claim is absent from the token's
claims, it renders an authentication error naming an absent configured claim
and never invokes the downstream handler; if every configured claim is
present, the downstream handler runs with a single derived context already
containing every `(contextKey, claimValue)` pair of the mapping (and all
prior context entries). -/
theorem c6_all_or_nothing (mapping : List (String × String)) (t : Token) (ctx : Ctx)
    (hne : mapping ≠ []) :
    ((∃ p ∈ mapping, List.lookup p.1 t.claims = none) →
       ∃ ck, (∃ xk, (ck, xk) ∈ mapping) ∧ List.lookup ck t.claims = none
         ∧ contextSetter mapping (some t) ctx = .authErr (ck ++ " claim not found in claims"))
  ∧ ((∀ p ∈ mapping, ∃ v, List.lookup p.1 t.claims = some v) →
       ∃ ctx2, contextSetter mapping (some t) ctx = .next ctx2
         ∧ (∀ x ∈ ctx, x ∈ ctx2)
         ∧ ∀ p ∈ mapping, ∃ v, List.lookup p.1 t.claims = some v ∧ (p.2, v) ∈ ctx2) := by
  have hemp : mapping.isEmpty = false := by
    cases mapping with
    | nil => exact absurd rfl hne
    | cons a l => rfl
  have hsetter : contextSetter mapping (some t) ctx = setClaims t.claims ctx mapping := by
    simp [contextSetter, hemp]
  constructor
  · intro h; rw [hsetter]; exact setClaims_missing t.claims mapping ctx h
  · intro h; rw [hsetter]; exact setClaims_all t.claims mapping ctx h

/-- C6 witness: mapping `sub → user` rejects a token without `sub` naming the
claim, and projects `sub = "alice"` under `user` for a token carrying it. -/
theorem c6_all_or_nothing_witness :
    (∃ ck, (∃ xk, (ck, xk) ∈ [("sub", "user")]) ∧
        List.lookup ck ([("aud", ClaimValue.str "a")] : MapClaims) = none
      ∧ contextSetter [("sub", "user")] (some ⟨some "A", [("aud", .str "a")]⟩) []
          = .authErr (ck ++ " claim not found in claims"))
  ∧ (∃ ctx2, contextSetter [("sub", "user")] (some ⟨some "A", [("sub", .str "alice")]⟩) []
        = .next ctx2
      ∧ (∀ x ∈ ([] : Ctx), x ∈ ctx2)
      ∧ ∀ p ∈ [("sub", "user")], ∃ v,
          List.lookup p.1 ([("sub", ClaimValue.str "alice")] : MapClaims) = some v
            ∧ (p.2, v) ∈ ctx2) :=
  ⟨(c6_all_or_nothing [("sub", "user")] ⟨some "A", [("aud", .str "a")]⟩ [] (by decide)).1
     ⟨("sub", "user"), by decide, by decide⟩,
   (c6_all_or_nothing [("sub", "user")] ⟨some "A", [("sub", .str "alice")]⟩ [] (by decide)).2
     (by intro p hp
         rcases List.mem_singleton.mp hp with rfl
         exact ⟨.str "alice", rfl⟩)⟩

/-! ### C9 -/

/-- Once the loader's one-shot gate has fired, a run of lookups performs no
fetch and every caller receives the cached key with a nil error. -/
theorem runOps_fired_gets (pc : String → Option RsaPublicKey) (l : JwksKeyLoader)
    (hf : l.onceFired = true) (f : FetchOutcome) (k : String) :
    ∀ m : Nat, runOps pc l (List.replicate m (.get f k))
      = (List.replicate m ⟨l.pubKey, none⟩, l, 0) := by
  intro m
  induction m with
  | zero => rfl
  | succ m ih =>
    have hg : getPublicKey pc l f k = (⟨l.pubKey, none⟩, l, 0) := by
      simp [getPublicKey, hf]
    rw [List.replicate_succ]
    simp [runOps, hg, ih, List.replicate_succ]

/-- C9, corrected at a concrete input: two callers on a fresh loader with the
network down cause exactly one fetch, but only the first caller receives the
fetch's outcome (the error); the second receives a nil key and a nil error,
which differs from the fetch outcome. -/
theorem c9_counterexample :
    runOps noCert newJwksKeyLoader [.get .netErr "A", .get .netErr "A"]
      = ([⟨none, some .fetchError⟩, ⟨none, none⟩], ⟨none, true⟩, 1)
  ∧ (⟨none, some .fetchError⟩ : GetResult) ≠ ⟨none, none⟩ := by decide

/-- C9 (amended): in the linearization that `sync.Once` imposes on N
concurrent `getPublicKey` callers starting before any data is cached, exactly
one network fetch happens; if that fetch succeeds and resolves the key, every
caller receives the resolved key; if it fails (network error), only the
caller that executed the fetch receives the error — every other caller
receives a nil key with a nil error. -/
theorem c9_single_fetch (pc : String → Option RsaPublicKey) (f : FetchOutcome)
    (k : String) (n : Nat) (hn : 1 ≤ n) :
    (runOps pc newJwksKeyLoader (List.replicate n (.get f k))).2.2 = 1
  ∧ (∀ doc key, f = .ok doc → scanKeys pc doc k = some key →
      (runOps pc newJwksKeyLoader (List.replicate n (.get f k))).1
        = List.replicate n ⟨some key, none⟩)
  ∧ (f = .netErr →
      (runOps pc newJwksKeyLoader (List.replicate n (.get f k))).1
        = ⟨none, some .fetchError⟩ :: List.replicate (n - 1) ⟨none, none⟩) := by
  obtain ⟨m, rfl⟩ : ∃ m, n = m + 1 := ⟨n - 1, (Nat.succ_pred_eq_of_pos hn).symm⟩
  refine ⟨?_, fun doc key hf hs => ?_, fun hf => ?_⟩
  · cases f with
    | netErr =>
      have hg : getPublicKey pc newJwksKeyLoader .netErr k
          = (⟨none, some .fetchError⟩, ⟨none, true⟩, 1) := rfl
      rw [List.replicate_succ]
      simp [runOps, hg, runOps_fired_gets pc ⟨none, true⟩ rfl .netErr k m]
    | parseErr =>
      have hg : getPublicKey pc newJwksKeyLoader .parseErr k
          = (⟨none, some .parseError⟩, ⟨none, true⟩, 1) := rfl
      rw [List.replicate_succ]
      simp [runOps, hg, runOps_fired_gets pc ⟨none, true⟩ rfl .parseErr k m]
    | ok doc =>
      rw [List.replicate_succ]
      cases hs : scanKeys pc doc k with
      | none =>
        have hg : getPublicKey pc newJwksKeyLoader (.ok doc) k
            = (⟨none, some .keyNotFound⟩, ⟨none, true⟩, 1) := by
          simp [getPublicKey, newJwksKeyLoader, hs]
        simp [runOps, hg, runOps_fired_gets pc ⟨none, true⟩ rfl (.ok doc) k m]
      | some key =>
        have hg : getPublicKey pc newJwksKeyLoader (.ok doc) k
            = (⟨some key, none⟩, ⟨some key, true⟩, 1) := by
          simp [getPublicKey, newJwksKeyLoader, hs]
        simp [runOps, hg, runOps_fired_gets pc ⟨some key, true⟩ rfl (.ok doc) k m]
  · subst hf
    have hg : getPublicKey pc newJwksKeyLoader (.ok doc) k
        = (⟨some key, none⟩, ⟨some key, true⟩, 1) := by
      simp [getPublicKey, newJwksKeyLoader, hs]
    rw [List.replicate_succ]
    simp [runOps, hg, runOps_fired_gets pc ⟨some key, true⟩ rfl (.ok doc) k m,
      List.replicate_succ]
  · subst hf
    have hg : getPublicKey pc newJwksKeyLoader .netErr k
        = (⟨none, some .fetchError⟩, ⟨none, true⟩, 1) := rfl
    rw [List.replicate_succ]
    simp [runOps, hg, runOps_fired_gets pc ⟨none, true⟩ rfl .netErr k m]

/-- C9 witness: three callers with a resolvable key all get the key after one
fetch; two callers with the network down see one fetch, an error for the
first caller and `(nil, nil)` for the second. -/
theorem c9_single_fetch_witness :
    (runOps noCert newJwksKeyLoader (List.replicate 3 (.get (.ok [entryA]) "A"))).2.2 = 1
  ∧ (runOps noCert newJwksKeyLoader (List.replicate 3 (.get (.ok [entryA]) "A"))).1
      = List.replicate 3 ⟨some keyA, none⟩
  ∧ (runOps noCert newJwksKeyLoader (List.replicate 2 (.get .netErr "A"))).1
      = ⟨none, some .fetchError⟩ :: List.replicate 1 ⟨none, none⟩ :=
  ⟨(c9_single_fetch noCert (.ok [entryA]) "A" 3 (by decide)).1,
   (c9_single_fetch noCert (.ok [entryA]) "A" 3 (by decide)).2.1 [entryA] keyA rfl (by decide),
   (c9_single_fetch noCert .netErr "A" 2 (by decide)).2.2 rfl⟩

end JwtMw
